import Mathlib

/-!
Verification of the rafiki trial-orchestration worker loop.

The development shallowly embeds `src/worker/Worker.py`: the transactional
store is a `DbState` record threaded explicitly, Python exceptions are an
`Except PyErr` layer, and the pluggable model capability and tuning
strategy are parameters (`Env`).  Store writes are recorded in an
operation trace so that temporal properties (one in-flight trial, the
final mark-stopped write, finalize attempts) can be stated.
-/

deriving instance DecidableEq for Except

namespace Rafiki

/-- A hyperparameter assignment: mapping from knob name to concrete value. -/
abbrev HP := List (String × Int)

/-- Scores are numeric; we use rationals. -/
abbrev Score := Rat

/-- Trained-parameters blob (treated as an abstract byte blob). -/
abbrev Params := List Nat

/-- A serialized model definition (treated as an abstract blob). -/
abbrev SerializedModel := Nat

/-- Modelled from the spec: a knob specification — fixed value, bounded
integer, bounded float (optionally log-scaled) or categorical choice.
(The knob datatypes live in the `rafiki.model` module, absent from src.) -/
inductive Knob
  | fixedVal (value : Int)
  | intRange (low high : Int)
  | floatRange (low high : Rat) (isExp : Bool)
  | categorical (choices : List Int)
deriving DecidableEq

/-- A hyperparameter space: mapping from knob name to knob specification. -/
abbrev HPConfig := List (String × Knob)

inductive TrialStatus
  | running
  | complete
  | errored
deriving DecidableEq

instance : BEq TrialStatus := ⟨fun a b => decide (a = b)⟩

inductive WorkerStatus
  | idle
  | running
  | stopped
deriving DecidableEq

/-- Modelled from the spec: budget types are an extensible tagged union with
at minimum the trial-count variant (the `worker.budget` module is absent
from src). -/
inductive BudgetType
  | trialCount
  | unknownType (tag : String)
deriving DecidableEq

structure TrainJob where
  id : Nat
  train_dataset_uri : String
  test_dataset_uri : String
  budget_type : BudgetType
  budget_amount : Nat
deriving DecidableEq

structure DbModel where
  id : Nat
  model_serialized : SerializedModel
deriving DecidableEq

structure WorkerRecord where
  id : Nat
  train_job_id : Nat
  model_id : Nat
  status : WorkerStatus
deriving DecidableEq

structure Trial where
  id : Nat
  model_id : Nat
  train_job_id : Nat
  hyperparameters : HP
  status : TrialStatus
  score : Option Score
  parameters : Option Params
deriving DecidableEq

/-- Store operations recorded in the trace: trial creation, entry into the
model-execution phase with its hyperparameters, finalize-complete attempts
(with success flag), finalize-errored writes, and the worker mark-stopped
write. -/
inductive Op
  | create (id : Nat) (hp : HP)
  | execTrial (hp : HP)
  | complete (id : Nat) (ok : Bool)
  | errored (id : Nat)
  | stopped
deriving DecidableEq

/-- The transactional store state.  `completeFaults` is a fault schedule for
`mark_trial_as_complete` (one entry consumed per call; `true` = the write
fails with a store error), used to examine finalize-failure behaviour. -/
structure DbState where
  workers : List WorkerRecord
  trainJobs : List TrainJob
  models : List DbModel
  trials : List Trial
  nextTrialId : Nat
  completeFaults : List Bool
  trace : List Op
deriving DecidableEq

/-- Python exceptions that can cross the embedded control flow. -/
inductive PyErr
  | noSuchTrainJob
  | noSuchModel
  | attributeError
  | storeError
  | configurationError
  | modelError (msg : String)
deriving DecidableEq

/-- The embedded effect type: explicit store-state passing plus Python
exceptions.  A raised exception does not roll back store writes already
committed, so the state is threaded through the error case too. -/
def M (α : Type) : Type := DbState → Except PyErr α × DbState

def mOk {α : Type} (a : α) : M α := fun s => (.ok a, s)

def mThrow {α : Type} (e : PyErr) : M α := fun s => (.error e, s)

def mBind {α β : Type} (x : M α) (f : α → M β) : M β := fun s =>
  match x s with
  | (.ok a, s1) => f a s1
  | (.error e, s1) => (.error e, s1)

/-- `try/except` of the source: the handler sees the state as the raising
operation left it. -/
def mTry {α : Type} (x : M α) (h : PyErr → M α) : M α := fun s =>
  match x s with
  | (.ok a, s1) => (.ok a, s1)
  | (.error e, s1) => h e s1

/-- Lift a pure fallible computation (a Python call that touches no store
state) into the effect type. -/
def mLift {α : Type} (x : Except PyErr α) : M α := fun s => (x, s)

section Store

/-- Modelled from the spec: the store's worker-assignment lookup (the `db`
module is absent from src).  Returns the record or `none`. -/
def lookupWorker (s : DbState) (wid : Nat) : Option WorkerRecord :=
  s.workers.find? (fun w => w.id == wid)

def lookupTrainJob (s : DbState) (tjid : Nat) : Option TrainJob :=
  s.trainJobs.find? (fun t => t.id == tjid)

def lookupModel (s : DbState) (mid : Nat) : Option DbModel :=
  s.models.find? (fun m => m.id == mid)

def lookupTrial (s : DbState) (tid : Nat) : Option Trial :=
  s.trials.find? (fun t => t.id == tid)

/-- Modelled from the spec: `get_train_job_worker` — a read, returning the
assignment record when present. -/
def get_train_job_worker (wid : Nat) : M (Option WorkerRecord) :=
  fun s => (.ok (lookupWorker s wid), s)

/-- Modelled from the spec: `mark_train_job_worker_as_running` — idempotent
status transition in one transaction.  Called with the object previously
read; on `none` (a Python `None`) the attribute access inside raises. -/
def mark_train_job_worker_as_running (w : Option WorkerRecord) : M Unit :=
  fun s =>
    match w with
    | none => (.error .attributeError, s)
    | some wr =>
      (.ok (), { s with
        workers := s.workers.map (fun x =>
          if x.id == wr.id then { x with status := .running } else x) })

/-- Modelled from the spec: `mark_train_job_worker_as_stopped` — idempotent
status transition in one transaction; recorded in the trace. -/
def mark_train_job_worker_as_stopped (w : Option WorkerRecord) : M Unit :=
  fun s =>
    match w with
    | none => (.error .attributeError, s)
    | some wr =>
      (.ok (), { s with
        workers := s.workers.map (fun x =>
          if x.id == wr.id then { x with status := .stopped } else x),
        trace := s.trace ++ [.stopped] })

/-- Modelled from the spec: `get_train_job` — a read; `Worker.py` checks the
result against `None`, so absence is modelled as `none`. -/
def get_train_job (tjid : Nat) : M (Option TrainJob) :=
  fun s => (.ok (lookupTrainJob s tjid), s)

/-- Modelled from the spec: `get_model` — a read returning `none` when the
id is unknown (checked by `Worker.py`). -/
def get_model (mid : Nat) : M (Option DbModel) :=
  fun s => (.ok (lookupModel s mid), s)

/-- The completed trials of a train job, in store order. -/
def completedOf (s : DbState) (tjid : Nat) : List Trial :=
  s.trials.filter (fun t => t.status == TrialStatus.complete && t.train_job_id == tjid)

/-- Modelled from the spec: `get_completed_trials_by_train_job` — returns
all trials with status complete for the train job. -/
def get_completed_trials_by_train_job (tjid : Nat) : M (List Trial) :=
  fun s => (.ok (completedOf s tjid), s)

/-- Modelled from the spec: `create_trial` — inserts a status=running row
with the chosen hyperparameters and a fresh id, and returns it. -/
def create_trial (mid tjid : Nat) (hp : HP) : M Trial :=
  fun s =>
    let t : Trial :=
      { id := s.nextTrialId, model_id := mid, train_job_id := tjid,
        hyperparameters := hp, status := .running,
        score := none, parameters := none }
    (.ok t, { s with
      trials := s.trials ++ [t],
      nextTrialId := s.nextTrialId + 1,
      trace := s.trace ++ [.create t.id hp] })

/-- Modelled from the spec: `get_trial` — a read. -/
def get_trial (tid : Nat) : M (Option Trial) :=
  fun s => (.ok (lookupTrial s tid), s)

/-- Modelled from the spec: `mark_trial_as_complete` — terminal transition
writing score and parameters.  Consumes one fault-schedule entry: on a
scheduled fault the write does not happen and a store error is raised;
either way the attempt is recorded in the trace. -/
def mark_trial_as_complete (tr : Trial) (sc : Score) (ps : Params) : M Unit :=
  fun s =>
    let fail := s.completeFaults.headD false
    if fail then
      (.error .storeError, { s with
        completeFaults := s.completeFaults.tail,
        trace := s.trace ++ [.complete tr.id false] })
    else
      (.ok (), { s with
        completeFaults := s.completeFaults.tail,
        trials := s.trials.map (fun t =>
          if t.id == tr.id then
            { t with status := .complete, score := some sc, parameters := some ps }
          else t),
        trace := s.trace ++ [.complete tr.id true] })

/-- Modelled from the spec: `mark_trial_as_errored` — terminal transition;
no score or parameters are written. -/
def mark_trial_as_errored (tr : Trial) : M Unit :=
  fun s =>
    (.ok (), { s with
      trials := s.trials.map (fun t =>
        if t.id == tr.id then { t with status := .errored } else t),
      trace := s.trace ++ [.errored tr.id] })

/-- `db.commit()` — the surrounding writes are already applied. -/
def commitDb : M Unit := mOk ()

/-- `db.connect()` — connection management, no data effect. -/
def connectDb : M Unit := mOk ()

/-- `db.disconnect()` — connection management, no data effect. -/
def disconnectDb : M Unit := mOk ()

end Store

/-- Modelled from the spec: the budget policy
`if_train_job_budget_reached(budget_type, budget_amount, completed_trials)`
(the `worker.budget` module is absent from src) — pure; the trial-count
variant is exhausted once the number of completed trials reaches the
amount; an unknown budget type is a configuration error. -/
def if_train_job_budget_reached (bt : BudgetType) (amount : Nat)
    (completed_trials : List Trial) : Except PyErr Bool :=
  match bt with
  | .trialCount => .ok (amount ≤ completed_trials.length)
  | .unknownType _ => .error .configurationError

/-- Modelled from the spec: a tuning-strategy state is scoped to one
hyperparameter space and carries the history it was trained on (the
`worker.tuner` module is absent from src). -/
structure Tuner where
  config : HPConfig
  history_hps : List HP
  history_scores : List (Option Score)
deriving DecidableEq

/-- Modelled from the spec: `create_tuner` — builds fresh strategy state
for one hyperparameter space; no history yet. -/
def create_tuner (c : HPConfig) : Tuner :=
  { config := c, history_hps := [], history_scores := [] }

/-- Modelled from the spec: `train_tuner` — returns the strategy trained on
exactly the given ordered history. -/
def train_tuner (t : Tuner) (hps : List HP) (scores : List (Option Score)) : Tuner :=
  { t with history_hps := hps, history_scores := scores }

/-- The state of an instantiated model capability is abstract (`σ`); the
capability's methods may raise. -/
structure ModelInst (σ : Type) where
  hpConfig : HPConfig
  init : HP → Except PyErr σ
  train : σ → String → Except PyErr σ
  evaluate : σ → String → Except PyErr Score
  dump_parameters : σ → Except PyErr Params
  destroy : σ → Except PyErr Unit

/-- The external collaborators of the loop: `unserialize_model` and the
tuning strategy's proposal function. -/
structure Env (σ : Type) where
  unserialize_model : SerializedModel → Except PyErr (ModelInst σ)
  propose : Tuner → HP

/-- Modelled from the spec: `propose_with_tuner` — asks the strategy for
one concrete assignment. -/
def propose_with_tuner {σ : Type} (env : Env σ) (t : Tuner) : HP :=
  env.propose t

namespace Worker

/-- `Worker._get_tuner_for_model` (Worker.py:164-177): instantiate a fresh
tuner from the model's hyperparameter config and train it on the completed
trials of the train job that belong to this model, unzipped in store
order. -/
def get_tuner_for_model {σ : Type} (env : Env σ) (train_job : TrainJob)
    (model : DbModel) : M Tuner :=
  mBind (mLift (env.unserialize_model model.model_serialized)) (fun model_inst =>
    let hyperparameters_config := model_inst.hpConfig
    let tuner := create_tuner hyperparameters_config
    mBind (get_completed_trials_by_train_job train_job.id) (fun trials =>
      let model_trial_history :=
        (trials.filter (fun x => x.model_id == model.id)).map
          (fun x => (x.hyperparameters, x.score))
      let pair :=
        if model_trial_history.length > 0 then
          (model_trial_history.map Prod.fst, model_trial_history.map Prod.snd)
        else ([], [])
      mOk (train_tuner tuner pair.1 pair.2)))

/-- `Worker._do_hyperparameter_selection` (Worker.py:156-161). -/
def do_hyperparameter_selection {σ : Type} (env : Env σ) (train_job : TrainJob)
    (model : DbModel) : M HP :=
  mBind (get_tuner_for_model env train_job model) (fun tuner =>
    mOk (propose_with_tuner env tuner))

/-- `Worker._create_new_trial` (Worker.py:129-153): read the train job and
model (raising a not-found error on a missing id), select hyperparameters,
insert the trial row and commit; returns the dataset URIs, the serialized
model, the hyperparameters and the new trial id. -/
def create_new_trial {σ : Type} (env : Env σ) (train_job_id model_id : Nat) :
    M (String × String × SerializedModel × HP × Nat) :=
  mBind (get_train_job train_job_id) (fun tj? =>
    match tj? with
    | none => mThrow .noSuchTrainJob
    | some train_job =>
      mBind (get_model model_id) (fun m? =>
        match m? with
        | none => mThrow .noSuchModel
        | some model =>
          mBind (do_hyperparameter_selection env train_job model) (fun hyperparameters =>
            mBind (create_trial model.id train_job.id hyperparameters) (fun trial =>
              mBind commitDb (fun _ =>
                mOk (train_job.train_dataset_uri, train_job.test_dataset_uri,
                     model.model_serialized, hyperparameters, trial.id))))))

/-- The pure part of the trial-execution phase (Worker.py:86-100):
deserialize, init with the hyperparameters, train, evaluate, dump the
parameters, destroy; any raised exception propagates. -/
def runModel {σ : Type} (env : Env σ) (mser : SerializedModel) (hp : HP)
    (train_uri test_uri : String) : Except PyErr (Score × Params) :=
  match env.unserialize_model mser with
  | .error e => .error e
  | .ok model_inst =>
    match model_inst.init hp with
    | .error e => .error e
    | .ok st0 =>
      match model_inst.train st0 train_uri with
      | .error e => .error e
      | .ok st1 =>
        match model_inst.evaluate st1 test_uri with
        | .error e => .error e
        | .ok score =>
          match model_inst.dump_parameters st1 with
          | .error e => .error e
          | .ok parameters =>
            match model_inst.destroy st1 with
            | .error e => .error e
            | .ok _ => .ok (score, parameters)

/-- Record that the model-execution phase started with these
hyperparameters (the argument of `model_inst.init` at Worker.py:87). -/
def recordExec (hp : HP) : M Unit :=
  fun s => (.ok (), { s with trace := s.trace ++ [.execTrial hp] })

/-- The try/except of `Worker._do_new_trial` (Worker.py:85-116): run the
model capability; on success re-read the trial and mark it complete with
score and parameters; on any exception — from the model calls or from the
finalize-complete write itself — re-read the trial and mark it errored. -/
def trial_execution {σ : Type} (env : Env σ) (mser : SerializedModel) (hp : HP)
    (train_uri test_uri : String) (trial_id : Nat) : M Unit :=
  mTry
    (mBind (recordExec hp) (fun _ =>
      match runModel env mser hp train_uri test_uri with
      | .error e => mThrow e
      | .ok (score, parameters) =>
        mBind (get_trial trial_id) (fun tr? =>
          match tr? with
          | none => mThrow .attributeError
          | some trial => mark_trial_as_complete trial score parameters)))
    (fun _ =>
      mBind (get_trial trial_id) (fun tr? =>
        match tr? with
        | none => mThrow .attributeError
        | some trial => mark_trial_as_errored trial))

/-- `Worker._do_new_trial` (Worker.py:74-116): create the trial record
(aborting on uncaught selection/creation errors), then execute it. -/
def do_new_trial {σ : Type} (env : Env σ) (train_job_id model_id : Nat) : M Unit :=
  mBind connectDb (fun _ =>
    mBind (create_new_trial env train_job_id model_id) (fun r =>
      mBind disconnectDb (fun _ =>
        match r with
        | (train_uri, test_uri, mser, hyperparameters, trial_id) =>
          trial_execution env mser hyperparameters train_uri test_uri trial_id)))

/-- `Worker._if_budget_reached` (Worker.py:118-127): read the train job and
its completed trials and apply the budget policy.  A missing train job
surfaces as an attribute error (`None.budget_type`). -/
def if_budget_reached (train_job_id : Nat) : M Bool :=
  mBind (get_train_job train_job_id) (fun tj? =>
    match tj? with
    | none => mThrow .attributeError
    | some train_job =>
      mBind (get_completed_trials_by_train_job train_job_id) (fun completed_trials =>
        mLift (if_train_job_budget_reached train_job.budget_type
          train_job.budget_amount completed_trials)))

/-- The body of one `while True` iteration of `Worker.start`
(Worker.py:38-56), before the surrounding `except`: re-read the
assignment, check the budget (`true` = reached, i.e. `break` with exit
code 0), otherwise run one trial. -/
def iteration_body {σ : Type} (env : Env σ) (worker_id : Nat) : M Bool :=
  mBind (get_train_job_worker worker_id) (fun w? =>
    match w? with
    | none => mThrow .attributeError
    | some worker =>
      mBind (if_budget_reached worker.train_job_id) (fun reached =>
        if reached then mOk true
        else mBind (do_new_trial env worker.train_job_id worker.model_id) (fun _ =>
          mOk false)))

/-- The `while True` loop of `Worker.start` (Worker.py:37-65): budget
reached breaks with exit code 0; any exception is caught and breaks with
exit code 1; otherwise loop.  `fuel` bounds the number of iterations we
unfold; `none` means the fuel ran out with the loop still running. -/
def worker_loop {σ : Type} (env : Env σ) (worker_id : Nat) :
    Nat → DbState → Option Nat × DbState
  | 0, s => (none, s)
  | Nat.succ n, s =>
    match iteration_body env worker_id s with
    | (.ok true, s1) => (some 0, s1)
    | (.ok false, s1) => worker_loop env worker_id n s1
    | (.error _, s1) => (some 1, s1)

/-- The loop, lifted into the effect type (it never raises). -/
def run_worker_loop {σ : Type} (env : Env σ) (worker_id fuel : Nat) : M (Option Nat) :=
  fun s =>
    match worker_loop env worker_id fuel s with
    | (code, s1) => (.ok code, s1)

/-- `Worker.start` (Worker.py:28-72): mark the assignment running, run the
loop, then mark the assignment stopped and exit with the loop's exit
code.  The returned value is the process exit code. -/
def start {σ : Type} (env : Env σ) (worker_id fuel : Nat) : M (Option Nat) :=
  mBind (get_train_job_worker worker_id) (fun w? =>
    mBind (mark_train_job_worker_as_running w?) (fun _ =>
      mBind (run_worker_loop env worker_id fuel) (fun exit_code =>
        mBind (get_train_job_worker worker_id) (fun w2? =>
          mBind (mark_train_job_worker_as_stopped w2?) (fun _ =>
            mOk exit_code)))))

end Worker

/-! ## Trace measures and store well-formedness -/

/-- Contribution of one trace operation to the number of in-flight
(created, not yet finalized) trials: creation opens one, a successful
finalize closes one; a failed finalize-complete attempt closes nothing. -/
def opWeight : Op → Int
  | .create _ _ => 1
  | .complete _ true => -1
  | .errored _ => -1
  | _ => 0

/-- Net number of in-flight trials after a trace. -/
def inflight (l : List Op) : Int := (l.map opWeight).sum

/-- Number of mark-stopped writes in a trace. -/
def countStopped (l : List Op) : Nat :=
  l.countP (fun op => match op with | .stopped => true | _ => false)

/-- Number of finalize-complete attempts (successful or failed) recorded
for a given trial id. -/
def countCompleteAttempts (l : List Op) (tid : Nat) : Nat :=
  l.countP (fun op => match op with | .complete i _ => i == tid | _ => false)

/-- Store well-formedness: the id counter exceeds every existing trial id
(true of any store whose trial ids were assigned by the counter). -/
def WF (s : DbState) : Prop := ∀ t ∈ s.trials, t.id < s.nextTrialId

/-! ## Helper descriptions of the states the worker produces -/

/-- The trial row inserted by `create_trial`. -/
def newTrial (s : DbState) (mid tjid : Nat) (hp : HP) : Trial :=
  { id := s.nextTrialId, model_id := mid, train_job_id := tjid,
    hyperparameters := hp, status := .running, score := none, parameters := none }

/-- The completed-trial history of one model inside one train job, as
(hyperparameters, score) pairs in store order. -/
def modelHistory (s : DbState) (tjid mid : Nat) : List (HP × Option Score) :=
  ((completedOf s tjid).filter (fun x => x.model_id == mid)).map
    (fun x => (x.hyperparameters, x.score))

/-- The tuner the worker builds for one proposal cycle: fresh state from
the model's hyperparameter config, trained on exactly the model's
completed-trial history. -/
def cycleTuner {σ : Type} (s : DbState) (tj : TrainJob) (model : DbModel)
    (mi : ModelInst σ) : Tuner :=
  { config := mi.hpConfig,
    history_hps := (modelHistory s tj.id model.id).map Prod.fst,
    history_scores := (modelHistory s tj.id model.id).map Prod.snd }

/-- The configuration the worker's proposal cycle produces. -/
def proposalFor {σ : Type} (env : Env σ) (s : DbState) (tj : TrainJob)
    (model : DbModel) (mi : ModelInst σ) : HP :=
  env.propose (cycleTuner s tj model mi)

/-! ## Characterization of the store primitives and worker phases -/

theorem unzip_if_eq (l : List (HP × Option Score)) :
    (if l.length > 0 then (l.map Prod.fst, l.map Prod.snd) else ([], [])) =
      (l.map Prod.fst, l.map Prod.snd) := by
  cases l with
  | nil => simp
  | cons a t => simp

theorem get_tuner_for_model_err {σ : Type} (env : Env σ) (tj : TrainJob)
    (model : DbModel) (s : DbState) (e : PyErr)
    (h : env.unserialize_model model.model_serialized = .error e) :
    Worker.get_tuner_for_model env tj model s = (.error e, s) := by
  simp [Worker.get_tuner_for_model, mBind, mLift, h]

theorem get_tuner_for_model_ok {σ : Type} (env : Env σ) (tj : TrainJob)
    (model : DbModel) (s : DbState) (mi : ModelInst σ)
    (h : env.unserialize_model model.model_serialized = .ok mi) :
    Worker.get_tuner_for_model env tj model s = (.ok (cycleTuner s tj model mi), s) := by
  simp only [Worker.get_tuner_for_model, mBind, mLift, h,
    get_completed_trials_by_train_job, mOk, unzip_if_eq]
  simp [cycleTuner, train_tuner, create_tuner, modelHistory]

theorem create_new_trial_no_train_job {σ : Type} (env : Env σ) (tjid mid : Nat)
    (s : DbState) (h : lookupTrainJob s tjid = none) :
    Worker.create_new_trial env tjid mid s = (.error .noSuchTrainJob, s) := by
  simp [Worker.create_new_trial, mBind, get_train_job, h, mThrow]

theorem create_new_trial_no_model {σ : Type} (env : Env σ) (tjid mid : Nat)
    (s : DbState) (tj : TrainJob)
    (htj : lookupTrainJob s tjid = some tj) (hm : lookupModel s mid = none) :
    Worker.create_new_trial env tjid mid s = (.error .noSuchModel, s) := by
  simp [Worker.create_new_trial, mBind, get_train_job, get_model, htj, hm, mThrow]

theorem create_new_trial_unserialize_err {σ : Type} (env : Env σ) (tjid mid : Nat)
    (s : DbState) (tj : TrainJob) (model : DbModel) (e : PyErr)
    (htj : lookupTrainJob s tjid = some tj) (hm : lookupModel s mid = some model)
    (hu : env.unserialize_model model.model_serialized = .error e) :
    Worker.create_new_trial env tjid mid s = (.error e, s) := by
  simp [Worker.create_new_trial, mBind, get_train_job, get_model, htj, hm,
    Worker.do_hyperparameter_selection, get_tuner_for_model_err env tj model s e hu]

/-- The store state after the trial row is inserted. -/
def afterCreate (s : DbState) (mid tjid : Nat) (hp : HP) : DbState :=
  { s with trials := s.trials ++ [newTrial s mid tjid hp],
           nextTrialId := s.nextTrialId + 1,
           trace := s.trace ++ [.create s.nextTrialId hp] }

theorem create_new_trial_ok {σ : Type} (env : Env σ) (tjid mid : Nat)
    (s : DbState) (tj : TrainJob) (model : DbModel) (mi : ModelInst σ)
    (htj : lookupTrainJob s tjid = some tj) (hm : lookupModel s mid = some model)
    (hu : env.unserialize_model model.model_serialized = .ok mi) :
    Worker.create_new_trial env tjid mid s =
      (.ok (tj.train_dataset_uri, tj.test_dataset_uri, model.model_serialized,
            proposalFor env s tj model mi, s.nextTrialId),
       afterCreate s model.id tj.id (proposalFor env s tj model mi)) := by
  simp only [Worker.create_new_trial, mBind, get_train_job, get_model, htj, hm,
    Worker.do_hyperparameter_selection, get_tuner_for_model_ok env tj model s mi hu,
    mOk, create_trial, commitDb, propose_with_tuner]
  simp [afterCreate, newTrial, proposalFor]

theorem find?_map_ite_trial (f : Trial → Trial) (hid : ∀ t, (f t).id = t.id)
    (l : List Trial) (k : Nat) (tr : Trial)
    (h : l.find? (fun t => t.id == k) = some tr) :
    (l.map (fun t => if t.id == k then f t else t)).find? (fun t => t.id == k) =
      some (f tr) := by
  induction l with
  | nil => simp at h
  | cons x xs ih =>
    by_cases hx : (x.id == k) = true
    · simp only [List.find?, hx] at h
      cases h
      simp [List.find?, hx, hid]
    · have hb : (x.id == k) = false := by simpa using hx
      simp only [List.find?, hb] at h
      rw [List.map_cons, if_neg hx]
      simp only [List.find?, hb]
      exact ih h

theorem find?_map_ite_worker (f : WorkerRecord → WorkerRecord)
    (hid : ∀ w, (f w).id = w.id)
    (l : List WorkerRecord) (k : Nat) (w : WorkerRecord)
    (h : l.find? (fun x => x.id == k) = some w) :
    (l.map (fun x => if x.id == k then f x else x)).find? (fun x => x.id == k) =
      some (f w) := by
  induction l with
  | nil => simp at h
  | cons x xs ih =>
    by_cases hx : (x.id == k) = true
    · simp only [List.find?, hx] at h
      cases h
      simp [List.find?, hx, hid]
    · have hb : (x.id == k) = false := by simpa using hx
      simp only [List.find?, hb] at h
      rw [List.map_cons, if_neg hx]
      simp only [List.find?, hb]
      exact ih h

theorem lookupTrial_found_id (s : DbState) (tid : Nat) (tr : Trial)
    (h : lookupTrial s tid = some tr) : tr.id = tid := by
  have := List.find?_some h
  simpa using this

theorem lookupWorker_found_id (s : DbState) (wid : Nat) (w : WorkerRecord)
    (h : lookupWorker s wid = some w) : w.id = wid := by
  have := List.find?_some h
  simpa using this

/-- A fresh trial row is found by its id in a well-formed store. -/
theorem lookupTrial_afterCreate (s : DbState) (mid tjid : Nat) (hp : HP)
    (hwf : WF s) :
    lookupTrial (afterCreate s mid tjid hp) s.nextTrialId =
      some (newTrial s mid tjid hp) := by
  simp only [lookupTrial, afterCreate, List.find?_append]
  have hnone : s.trials.find? (fun t => t.id == s.nextTrialId) = none := by
    rw [List.find?_eq_none]
    intro x hx
    have := hwf x hx
    simp only [beq_iff_eq]
    omega
  rw [hnone]
  simp [newTrial]

/-- The state after a trial is finalized as errored. -/
def setErrored (s : DbState) (tid : Nat) : DbState :=
  { s with
    trials := s.trials.map (fun t =>
      if t.id == tid then { t with status := .errored } else t),
    trace := s.trace ++ [.errored tid] }

/-- The state after a trial is finalized as complete. -/
def setComplete (s : DbState) (tid : Nat) (sc : Score) (ps : Params) : DbState :=
  { s with
    completeFaults := s.completeFaults.tail,
    trials := s.trials.map (fun t =>
      if t.id == tid then
        { t with status := .complete, score := some sc, parameters := some ps }
      else t),
    trace := s.trace ++ [.complete tid true] }

/-- The state after a faulted finalize-complete followed by the handler's
finalize-errored. -/
def setFaultErrored (s : DbState) (tid : Nat) : DbState :=
  { s with
    completeFaults := s.completeFaults.tail,
    trials := s.trials.map (fun t =>
      if t.id == tid then { t with status := .errored } else t),
    trace := s.trace ++ [.complete tid false, .errored tid] }

theorem trial_execution_model_err {σ : Type} (env : Env σ) (mser : SerializedModel)
    (hp : HP) (u1 u2 : String) (tid : Nat) (s : DbState) (tr : Trial) (e : PyErr)
    (hl : lookupTrial s tid = some tr)
    (hm : Worker.runModel env mser hp u1 u2 = .error e) :
    Worker.trial_execution env mser hp u1 u2 tid s =
      (.ok (), setErrored { s with trace := s.trace ++ [.execTrial hp] } tid) := by
  have hid := lookupTrial_found_id s tid tr hl
  simp only [lookupTrial] at hl
  simp only [Worker.trial_execution, mTry, mBind, Worker.recordExec, hm, mThrow,
    get_trial, lookupTrial]
  simp [hl, mark_trial_as_errored, setErrored, hid]

theorem trial_execution_complete {σ : Type} (env : Env σ) (mser : SerializedModel)
    (hp : HP) (u1 u2 : String) (tid : Nat) (s : DbState) (tr : Trial)
    (sc : Score) (ps : Params)
    (hl : lookupTrial s tid = some tr)
    (hm : Worker.runModel env mser hp u1 u2 = .ok (sc, ps))
    (hf : s.completeFaults.headD false = false) :
    Worker.trial_execution env mser hp u1 u2 tid s =
      (.ok (), setComplete { s with trace := s.trace ++ [.execTrial hp] } tid sc ps) := by
  have hid := lookupTrial_found_id s tid tr hl
  simp only [lookupTrial] at hl
  simp only [Worker.trial_execution, mTry, mBind, Worker.recordExec, hm,
    get_trial, lookupTrial]
  cases hcf : s.completeFaults with
  | nil =>
    simp [hl, mark_trial_as_complete, hcf, setComplete, hid]
  | cons b rest =>
    rw [hcf] at hf
    simp only [List.headD_cons] at hf
    subst hf
    simp [hl, mark_trial_as_complete, hcf, setComplete, hid]

theorem trial_execution_complete_fault {σ : Type} (env : Env σ)
    (mser : SerializedModel) (hp : HP) (u1 u2 : String) (tid : Nat) (s : DbState)
    (tr : Trial) (sc : Score) (ps : Params)
    (hl : lookupTrial s tid = some tr)
    (hm : Worker.runModel env mser hp u1 u2 = .ok (sc, ps))
    (hf : s.completeFaults.headD false = true) :
    Worker.trial_execution env mser hp u1 u2 tid s =
      (.ok (), setFaultErrored { s with trace := s.trace ++ [.execTrial hp] } tid) := by
  have hid := lookupTrial_found_id s tid tr hl
  simp only [lookupTrial] at hl
  simp only [Worker.trial_execution, mTry, mBind, Worker.recordExec, hm,
    get_trial, lookupTrial]
  cases hcf : s.completeFaults with
  | nil =>
    rw [hcf] at hf
    simp at hf
  | cons b rest =>
    rw [hcf] at hf
    simp only [List.headD_cons] at hf
    subst hf
    simp [hl, mark_trial_as_complete, hcf, mark_trial_as_errored,
      setFaultErrored, hid]

theorem if_budget_reached_none (tjid : Nat) (s : DbState)
    (h : lookupTrainJob s tjid = none) :
    Worker.if_budget_reached tjid s = (.error .attributeError, s) := by
  simp [Worker.if_budget_reached, mBind, get_train_job, h, mThrow]

theorem if_budget_reached_some (tjid : Nat) (s : DbState) (tj : TrainJob)
    (h : lookupTrainJob s tjid = some tj) :
    Worker.if_budget_reached tjid s =
      (if_train_job_budget_reached tj.budget_type tj.budget_amount
        (completedOf s tjid), s) := by
  simp [Worker.if_budget_reached, mBind, get_train_job, h,
    get_completed_trials_by_train_job, mLift]

theorem lookupTrial_setErrored (s : DbState) (tid : Nat) (tr : Trial)
    (h : lookupTrial s tid = some tr) :
    lookupTrial (setErrored s tid) tid = some { tr with status := .errored } := by
  simp only [lookupTrial, setErrored]
  exact find?_map_ite_trial (fun t => { t with status := .errored }) (fun t => rfl) _ _ _ h

theorem lookupTrial_setComplete (s : DbState) (tid : Nat) (tr : Trial)
    (sc : Score) (ps : Params) (h : lookupTrial s tid = some tr) :
    lookupTrial (setComplete s tid sc ps) tid =
      some { tr with status := .complete, score := some sc, parameters := some ps } := by
  simp only [lookupTrial, setComplete]
  exact find?_map_ite_trial
    (fun t => { t with status := .complete, score := some sc, parameters := some ps })
    (fun t => rfl) _ _ _ h

theorem lookupTrial_setFaultErrored (s : DbState) (tid : Nat) (tr : Trial)
    (h : lookupTrial s tid = some tr) :
    lookupTrial (setFaultErrored s tid) tid = some { tr with status := .errored } := by
  simp only [lookupTrial, setFaultErrored]
  exact find?_map_ite_trial (fun t => { t with status := .errored }) (fun t => rfl) _ _ _ h

/-- `Worker._do_new_trial`, once the selection+creation phase has
succeeded, runs the execution phase on the state holding the new row. -/
theorem do_new_trial_run {σ : Type} (env : Env σ) (tjid mid : Nat) (s : DbState)
    (tj : TrainJob) (model : DbModel) (mi : ModelInst σ)
    (htj : lookupTrainJob s tjid = some tj) (hm : lookupModel s mid = some model)
    (hu : env.unserialize_model model.model_serialized = .ok mi) :
    Worker.do_new_trial env tjid mid s =
      Worker.trial_execution env model.model_serialized
        (proposalFor env s tj model mi)
        tj.train_dataset_uri tj.test_dataset_uri s.nextTrialId
        (afterCreate s model.id tj.id (proposalFor env s tj model mi)) := by
  simp [Worker.do_new_trial, mBind, connectDb, disconnectDb, mOk,
    create_new_trial_ok env tjid mid s tj model mi htj hm hu]

/-! ## The claims -/

/-- C5: on every proposal cycle the tuning strategy handed to `propose` is
freshly constructed from the model's hyperparameter config and trained on
exactly the (hyperparameters, score) pairs of the completed trials of the
train job whose model_id equals the worker's model, in store order; its
value is a function of the current store history alone, so no tuner state
survives from previous attempts or process runs. -/
theorem C5_fresh_tuner_each_cycle {σ : Type} (env : Env σ) (tj : TrainJob)
    (model : DbModel) (s : DbState) (mi : ModelInst σ)
    (hu : env.unserialize_model model.model_serialized = .ok mi) :
    Worker.get_tuner_for_model env tj model s =
      (.ok (train_tuner (create_tuner mi.hpConfig)
          ((modelHistory s tj.id model.id).map Prod.fst)
          ((modelHistory s tj.id model.id).map Prod.snd)), s) ∧
    (∀ s2 : DbState, modelHistory s2 tj.id model.id = modelHistory s tj.id model.id →
      (Worker.get_tuner_for_model env tj model s2).1 =
        (Worker.get_tuner_for_model env tj model s).1) := by
  constructor
  · rw [get_tuner_for_model_ok env tj model s mi hu]
    simp [cycleTuner, train_tuner, create_tuner]
  · intro s2 hh
    rw [get_tuner_for_model_ok env tj model s mi hu,
      get_tuner_for_model_ok env tj model s2 mi hu]
    simp [cycleTuner, hh]

/-- C6: the budget evaluation reads only the train job's budget type and
amount and the status=complete trials of that train job: every trial
passed to the policy is complete and belongs to the train job, and any
two stores agreeing on those inputs yield the same verdict. -/
theorem C6_budget_inputs (s : DbState) (tjid : Nat) (tj : TrainJob)
    (htj : lookupTrainJob s tjid = some tj) :
    (∀ t ∈ completedOf s tjid, t.status = .complete ∧ t.train_job_id = tjid) ∧
    Worker.if_budget_reached tjid s =
      (if_train_job_budget_reached tj.budget_type tj.budget_amount
        (completedOf s tjid), s) ∧
    (∀ (s2 : DbState) (tj2 : TrainJob), lookupTrainJob s2 tjid = some tj2 →
      tj2.budget_type = tj.budget_type → tj2.budget_amount = tj.budget_amount →
      completedOf s2 tjid = completedOf s tjid →
      (Worker.if_budget_reached tjid s2).1 = (Worker.if_budget_reached tjid s).1) := by
  refine ⟨?_, if_budget_reached_some tjid s tj htj, ?_⟩
  · intro t ht
    simp only [completedOf, List.mem_filter, Bool.and_eq_true, beq_iff_eq] at ht
    exact ⟨ht.2.1, ht.2.2⟩
  · intro s2 tj2 htj2 hbt hba hc
    rw [if_budget_reached_some tjid s tj htj, if_budget_reached_some tjid s2 tj2 htj2]
    simp [hbt, hba, hc]

/-- C3: when the budget policy reports the train job's budget exhausted at
the top of a RUNNING iteration, the iteration creates no trial (the store
state is returned unchanged), the loop breaks, and the loop's exit code
is 0. -/
theorem C3_budget_exhausted_exits_zero {σ : Type} (env : Env σ) (wid n : Nat)
    (s : DbState) (w : WorkerRecord) (tj : TrainJob)
    (hw : lookupWorker s wid = some w)
    (htj : lookupTrainJob s w.train_job_id = some tj)
    (hb : if_train_job_budget_reached tj.budget_type tj.budget_amount
      (completedOf s w.train_job_id) = .ok true) :
    Worker.iteration_body env wid s = (.ok true, s) ∧
    Worker.worker_loop env wid (n + 1) s = (some 0, s) := by
  have hiter : Worker.iteration_body env wid s = (.ok true, s) := by
    simp [Worker.iteration_body, mBind, get_train_job_worker, hw,
      if_budget_reached_some _ _ _ htj, hb, mOk]
  refine ⟨hiter, ?_⟩
  simp [Worker.worker_loop, hiter]

/-- C4: a store lookup returning no record during trial
selection+creation raises the matching not-found error with the store
unchanged (no trial row is inserted); at the loop level, a missing model
record aborts the whole loop with exit code 1 and an unchanged store. -/
theorem C4_not_found_aborts {σ : Type} (env : Env σ) (wid n : Nat)
    (s : DbState) (w : WorkerRecord) (tj : TrainJob)
    (hw : lookupWorker s wid = some w)
    (htj : lookupTrainJob s w.train_job_id = some tj)
    (hb : if_train_job_budget_reached tj.budget_type tj.budget_amount
      (completedOf s w.train_job_id) = .ok false)
    (hnm : lookupModel s w.model_id = none) :
    (∀ (tjid mid : Nat) (sx : DbState), lookupTrainJob sx tjid = none →
      Worker.create_new_trial env tjid mid sx = (.error .noSuchTrainJob, sx)) ∧
    (∀ (tjid mid : Nat) (sx : DbState) (tjx : TrainJob),
      lookupTrainJob sx tjid = some tjx → lookupModel sx mid = none →
      Worker.create_new_trial env tjid mid sx = (.error .noSuchModel, sx)) ∧
    Worker.iteration_body env wid s = (.error .noSuchModel, s) ∧
    Worker.worker_loop env wid (n + 1) s = (some 1, s) := by
  refine ⟨fun tjid mid sx hx => create_new_trial_no_train_job env tjid mid sx hx,
    fun tjid mid sx tjx hx hmx => create_new_trial_no_model env tjid mid sx tjx hx hmx,
    ?_, ?_⟩
  · simp [Worker.iteration_body, mBind, get_train_job_worker, hw,
      if_budget_reached_some _ _ _ htj, hb, mOk, Worker.do_new_trial, connectDb,
      create_new_trial_no_model env w.train_job_id w.model_id s tj htj hnm]
  · have hiter : Worker.iteration_body env wid s = (.error .noSuchModel, s) := by
      simp [Worker.iteration_body, mBind, get_train_job_worker, hw,
        if_budget_reached_some _ _ _ htj, hb, mOk, Worker.do_new_trial, connectDb,
        create_new_trial_no_model env w.train_job_id w.model_id s tj htj hnm]
    simp [Worker.worker_loop, hiter]

/-- C2: an exception raised by the model capability during the execution
phase (deserialization, init, train or evaluate — summarized by
`runModel` failing) leaves the trial finalized as errored with no score
and no parameters, the raise is swallowed (`do_new_trial` returns
normally), and the outer loop proceeds to its next iteration instead of
terminating. -/
theorem C2_model_exception_marks_errored {σ : Type} (env : Env σ) (tjid mid : Nat)
    (s : DbState) (tj : TrainJob) (model : DbModel) (mi : ModelInst σ) (e : PyErr)
    (hwf : WF s)
    (htj : lookupTrainJob s tjid = some tj) (hm : lookupModel s mid = some model)
    (hu : env.unserialize_model model.model_serialized = .ok mi)
    (hrm : Worker.runModel env model.model_serialized (proposalFor env s tj model mi)
      tj.train_dataset_uri tj.test_dataset_uri = .error e) :
    ∃ s2 : DbState,
      Worker.do_new_trial env tjid mid s = (.ok (), s2) ∧
      lookupTrial s2 s.nextTrialId =
        some { id := s.nextTrialId, model_id := model.id, train_job_id := tj.id,
               hyperparameters := proposalFor env s tj model mi,
               status := .errored, score := none, parameters := none } ∧
      (∀ (wid : Nat) (w : WorkerRecord), lookupWorker s wid = some w →
        w.train_job_id = tjid → w.model_id = mid →
        if_train_job_budget_reached tj.budget_type tj.budget_amount
          (completedOf s tjid) = .ok false →
        Worker.iteration_body env wid s = (.ok false, s2) ∧
        ∀ n : Nat, Worker.worker_loop env wid (n + 1) s =
          Worker.worker_loop env wid n s2) := by
  have hrun := do_new_trial_run env tjid mid s tj model mi htj hm hu
  have hlook := lookupTrial_afterCreate s model.id tj.id
    (proposalFor env s tj model mi) hwf
  have hexec := trial_execution_model_err env model.model_serialized
    (proposalFor env s tj model mi) tj.train_dataset_uri tj.test_dataset_uri
    s.nextTrialId (afterCreate s model.id tj.id (proposalFor env s tj model mi))
    (newTrial s model.id tj.id (proposalFor env s tj model mi)) e hlook hrm
  have hdo := hrun.trans hexec
  refine ⟨_, hdo, ?_, ?_⟩
  · have := lookupTrial_setErrored
      { afterCreate s model.id tj.id (proposalFor env s tj model mi) with
        trace := (afterCreate s model.id tj.id (proposalFor env s tj model mi)).trace
          ++ [.execTrial (proposalFor env s tj model mi)] }
      s.nextTrialId (newTrial s model.id tj.id (proposalFor env s tj model mi)) hlook
    simpa [newTrial] using this
  · intro wid w hw h1 h2 hb
    have hiter : Worker.iteration_body env wid s =
        (.ok false, (Worker.do_new_trial env tjid mid s).2) := by
      simp only [Worker.iteration_body, mBind, get_train_job_worker, hw, h1, h2,
        if_budget_reached_some _ _ _ htj, mLift, hb, mOk]
      simp [mBind, mOk, hdo]
    rw [hdo] at hiter
    exact ⟨hiter, fun n => by simp [Worker.worker_loop, hiter]⟩

/-- C7 (amended): when the store write that finalizes a trial as complete
fails, the worker does not re-attempt that write; the per-trial exception
handler finalizes the trial as errored instead (exactly one
finalize-complete attempt appears in the trace, flagged failed), and the
worker continues normally. -/
theorem C7_failed_finalize_marks_errored {σ : Type} (env : Env σ) (tjid mid : Nat)
    (s : DbState) (tj : TrainJob) (model : DbModel) (mi : ModelInst σ)
    (sc : Score) (ps : Params)
    (hwf : WF s)
    (htj : lookupTrainJob s tjid = some tj) (hm : lookupModel s mid = some model)
    (hu : env.unserialize_model model.model_serialized = .ok mi)
    (hrm : Worker.runModel env model.model_serialized (proposalFor env s tj model mi)
      tj.train_dataset_uri tj.test_dataset_uri = .ok (sc, ps))
    (hcf : s.completeFaults.headD false = true) :
    ∃ s2 : DbState,
      Worker.do_new_trial env tjid mid s = (.ok (), s2) ∧
      s2.trace = s.trace ++
        [.create s.nextTrialId (proposalFor env s tj model mi),
         .execTrial (proposalFor env s tj model mi),
         .complete s.nextTrialId false, .errored s.nextTrialId] ∧
      countCompleteAttempts (s2.trace.drop s.trace.length) s.nextTrialId = 1 ∧
      lookupTrial s2 s.nextTrialId =
        some { id := s.nextTrialId, model_id := model.id, train_job_id := tj.id,
               hyperparameters := proposalFor env s tj model mi,
               status := .errored, score := none, parameters := none } := by
  have hrun := do_new_trial_run env tjid mid s tj model mi htj hm hu
  have hlook := lookupTrial_afterCreate s model.id tj.id
    (proposalFor env s tj model mi) hwf
  have hcf2 : (afterCreate s model.id tj.id
      (proposalFor env s tj model mi)).completeFaults.headD false = true := hcf
  have hexec := trial_execution_complete_fault env model.model_serialized
    (proposalFor env s tj model mi) tj.train_dataset_uri tj.test_dataset_uri
    s.nextTrialId (afterCreate s model.id tj.id (proposalFor env s tj model mi))
    (newTrial s model.id tj.id (proposalFor env s tj model mi)) sc ps hlook hrm hcf2
  have hdo := hrun.trans hexec
  refine ⟨_, hdo, ?_, ?_, ?_⟩
  · simp [setFaultErrored, afterCreate]
  · have htr : (setFaultErrored
        { afterCreate s model.id tj.id (proposalFor env s tj model mi) with
          trace := (afterCreate s model.id tj.id (proposalFor env s tj model mi)).trace
            ++ [.execTrial (proposalFor env s tj model mi)] }
        s.nextTrialId).trace = s.trace ++
        [.create s.nextTrialId (proposalFor env s tj model mi),
         .execTrial (proposalFor env s tj model mi),
         .complete s.nextTrialId false, .errored s.nextTrialId] := by
      simp [setFaultErrored, afterCreate]
    rw [htr, List.drop_left]
    simp [countCompleteAttempts]
  · have := lookupTrial_setFaultErrored
      { afterCreate s model.id tj.id (proposalFor env s tj model mi) with
        trace := (afterCreate s model.id tj.id (proposalFor env s tj model mi)).trace
          ++ [.execTrial (proposalFor env s tj model mi)] }
      s.nextTrialId (newTrial s model.id tj.id (proposalFor env s tj model mi)) hlook
    simpa [newTrial] using this

/-- C10: the hyperparameter mapping persisted in the newly created trial
row is exactly the mapping the tuner proposed, and the same mapping is
the one the execution phase hands to the model instance's init (the
`execTrial` trace entry directly follows the `create` entry with the
identical mapping). -/
theorem C10_stored_equals_proposed_equals_executed {σ : Type} (env : Env σ)
    (tjid mid : Nat) (s : DbState) (tj : TrainJob) (model : DbModel)
    (mi : ModelInst σ)
    (hwf : WF s)
    (htj : lookupTrainJob s tjid = some tj) (hm : lookupModel s mid = some model)
    (hu : env.unserialize_model model.model_serialized = .ok mi) :
    Worker.create_new_trial env tjid mid s =
      (.ok (tj.train_dataset_uri, tj.test_dataset_uri, model.model_serialized,
            proposalFor env s tj model mi, s.nextTrialId),
       afterCreate s model.id tj.id (proposalFor env s tj model mi)) ∧
    lookupTrial (afterCreate s model.id tj.id (proposalFor env s tj model mi))
        s.nextTrialId =
      some { id := s.nextTrialId, model_id := model.id, train_job_id := tj.id,
             hyperparameters := proposalFor env s tj model mi,
             status := .running, score := none, parameters := none } ∧
    ∃ rest : List Op,
      (Worker.do_new_trial env tjid mid s).2.trace = s.trace ++
        Op.create s.nextTrialId (proposalFor env s tj model mi) ::
        Op.execTrial (proposalFor env s tj model mi) :: rest := by
  have hrun := do_new_trial_run env tjid mid s tj model mi htj hm hu
  have hlook := lookupTrial_afterCreate s model.id tj.id
    (proposalFor env s tj model mi) hwf
  refine ⟨create_new_trial_ok env tjid mid s tj model mi htj hm hu, ?_, ?_⟩
  · simpa [newTrial] using hlook
  · cases hrm : Worker.runModel env model.model_serialized
      (proposalFor env s tj model mi) tj.train_dataset_uri tj.test_dataset_uri with
    | error e =>
      have hexec := trial_execution_model_err env model.model_serialized
        (proposalFor env s tj model mi) tj.train_dataset_uri tj.test_dataset_uri
        s.nextTrialId (afterCreate s model.id tj.id (proposalFor env s tj model mi))
        (newTrial s model.id tj.id (proposalFor env s tj model mi)) e hlook hrm
      rw [hrun.trans hexec]
      exact ⟨[.errored s.nextTrialId], by simp [setErrored, afterCreate]⟩
    | ok pr =>
      obtain ⟨sc, ps⟩ := pr
      cases hcf : (afterCreate s model.id tj.id
          (proposalFor env s tj model mi)).completeFaults.headD false with
      | false =>
        have hexec := trial_execution_complete env model.model_serialized
          (proposalFor env s tj model mi) tj.train_dataset_uri tj.test_dataset_uri
          s.nextTrialId (afterCreate s model.id tj.id (proposalFor env s tj model mi))
          (newTrial s model.id tj.id (proposalFor env s tj model mi)) sc ps hlook hrm hcf
        rw [hrun.trans hexec]
        exact ⟨[.complete s.nextTrialId true], by simp [setComplete, afterCreate]⟩
      | true =>
        have hexec := trial_execution_complete_fault env model.model_serialized
          (proposalFor env s tj model mi) tj.train_dataset_uri tj.test_dataset_uri
          s.nextTrialId (afterCreate s model.id tj.id (proposalFor env s tj model mi))
          (newTrial s model.id tj.id (proposalFor env s tj model mi)) sc ps hlook hrm hcf
        rw [hrun.trans hexec]
        exact ⟨[.complete s.nextTrialId false, .errored s.nextTrialId],
          by simp [setFaultErrored, afterCreate]⟩

/-! ## Loop invariant: trace deltas of one iteration -/

/-- A well-behaved trace segment: it never has more than one trial
in flight at any prefix, ends with every created trial finalized, and
contains no mark-stopped write. -/
def goodDelta (Δ : List Op) : Prop :=
  (∀ k : Nat, 0 ≤ inflight (Δ.take k) ∧ inflight (Δ.take k) ≤ 1) ∧
  inflight Δ = 0 ∧ countStopped Δ = 0

theorem inflight_append (a b : List Op) :
    inflight (a ++ b) = inflight a + inflight b := by
  simp [inflight]

theorem countStopped_append (a b : List Op) :
    countStopped (a ++ b) = countStopped a + countStopped b := by
  simp [countStopped, List.countP_append]

theorem goodDelta_nil : goodDelta [] := by
  refine ⟨fun k => ?_, ?_, ?_⟩ <;> simp [inflight, countStopped]

theorem goodDelta_append (a b : List Op) (ha : goodDelta a) (hb : goodDelta b) :
    goodDelta (a ++ b) := by
  obtain ⟨h1, h1z, h1s⟩ := ha
  obtain ⟨h2, h2z, h2s⟩ := hb
  refine ⟨?_, ?_, ?_⟩
  · intro k
    rw [List.take_append_eq_append_take, inflight_append]
    rcases Nat.le_total k a.length with hk | hk
    · have hz : k - a.length = 0 := Nat.sub_eq_zero_of_le hk
      rw [hz]
      simpa [inflight] using h1 k
    · have ht : a.take k = a := List.take_of_length_le hk
      rw [ht, h1z]
      simpa using h2 (k - a.length)
  · simp [inflight_append, h1z, h2z]
  · simp [countStopped_append, h1s, h2s]

/-- Appending the single final mark-stopped write keeps the in-flight
bound. -/
theorem bounded_take_append_stopped (Δ : List Op) (h : goodDelta Δ) :
    ∀ k : Nat, inflight ((Δ ++ [Op.stopped]).take k) ≤ 1 := by
  intro k
  rw [List.take_append_eq_append_take, inflight_append]
  rcases Nat.le_total k Δ.length with hk | hk
  · rw [Nat.sub_eq_zero_of_le hk]
    simpa [inflight] using (h.1 k).2
  · rw [List.take_of_length_le hk, h.2.1]
    have hs : inflight (List.take (k - Δ.length) [Op.stopped]) = 0 := by
      cases hkd : k - Δ.length with
      | zero => simp [inflight]
      | succ n =>
        rw [List.take_of_length_le (by simp)]
        simp [inflight, opWeight]
    rw [hs]
    norm_num

theorem goodDelta_shape_err (i : Nat) (h1 h2 : HP) (j : Nat) :
    goodDelta [.create i h1, .execTrial h2, .errored j] := by
  refine ⟨fun k => ?_, by simp [inflight, opWeight], by simp [countStopped]⟩
  match k with
  | 0 => simp [inflight]
  | 1 => simp [inflight, opWeight]
  | 2 => simp [inflight, opWeight]
  | n + 3 =>
    rw [List.take_of_length_le (by simp)]
    simp [inflight, opWeight]

theorem goodDelta_shape_complete (i : Nat) (h1 h2 : HP) (j : Nat) :
    goodDelta [.create i h1, .execTrial h2, .complete j true] := by
  refine ⟨fun k => ?_, by simp [inflight, opWeight], by simp [countStopped]⟩
  match k with
  | 0 => simp [inflight]
  | 1 => simp [inflight, opWeight]
  | 2 => simp [inflight, opWeight]
  | n + 3 =>
    rw [List.take_of_length_le (by simp)]
    simp [inflight, opWeight]

theorem goodDelta_shape_fault (i : Nat) (h1 h2 : HP) (j1 j2 : Nat) :
    goodDelta [.create i h1, .execTrial h2, .complete j1 false, .errored j2] := by
  refine ⟨fun k => ?_, by simp [inflight, opWeight], by simp [countStopped]⟩
  match k with
  | 0 => simp [inflight]
  | 1 => simp [inflight, opWeight]
  | 2 => simp [inflight, opWeight]
  | 3 => simp [inflight, opWeight]
  | n + 4 =>
    rw [List.take_of_length_le (by simp)]
    simp [inflight, opWeight]

theorem WF_afterCreate (s : DbState) (mid tjid : Nat) (hp : HP) (hwf : WF s) :
    WF (afterCreate s mid tjid hp) := by
  intro t ht
  simp only [afterCreate, List.mem_append, List.mem_singleton] at ht
  rcases ht with ht | ht
  · have := hwf t ht
    simp only [afterCreate]
    omega
  · subst ht
    simp [afterCreate, newTrial]

theorem WF_map_update (s : DbState) (f : Trial → Trial) (hid : ∀ t, (f t).id = t.id)
    (cond : Trial → Bool) (hwf : WF s) :
    WF { s with trials := s.trials.map (fun t => if cond t then f t else t) } := by
  intro t ht
  simp only [List.mem_map] at ht
  obtain ⟨u, hu, hut⟩ := ht
  have hu2 := hwf u hu
  by_cases hc : cond u
  · rw [if_pos hc] at hut
    subst hut
    simpa [hid] using hu2
  · rw [if_neg hc] at hut
    subst hut
    exact hu2

theorem WF_setErrored (s : DbState) (tid : Nat) (hwf : WF s) :
    WF (setErrored s tid) :=
  WF_map_update s (fun t => { t with status := .errored }) (fun t => rfl)
    (fun t => t.id == tid) hwf

theorem WF_setComplete (s : DbState) (tid : Nat) (sc : Score) (ps : Params)
    (hwf : WF s) : WF (setComplete s tid sc ps) :=
  WF_map_update { s with completeFaults := s.completeFaults.tail }
    (fun t => { t with status := .complete, score := some sc, parameters := some ps })
    (fun t => rfl) (fun t => t.id == tid) hwf

theorem WF_setFaultErrored (s : DbState) (tid : Nat) (hwf : WF s) :
    WF (setFaultErrored s tid) :=
  WF_map_update { s with completeFaults := s.completeFaults.tail }
    (fun t => { t with status := .errored }) (fun t => rfl)
    (fun t => t.id == tid) hwf

/-- One iteration of the worker loop preserves store well-formedness and
appends a well-behaved trace segment. -/
theorem iteration_good {σ : Type} (env : Env σ) (wid : Nat) (s : DbState)
    (hwf : WF s) :
    WF (Worker.iteration_body env wid s).2 ∧
    ∃ Δ : List Op, (Worker.iteration_body env wid s).2.trace = s.trace ++ Δ ∧
      goodDelta Δ := by
  cases hw : lookupWorker s wid with
  | none =>
    simp only [Worker.iteration_body, mBind, get_train_job_worker, hw, mThrow]
    exact ⟨hwf, [], by simp, goodDelta_nil⟩
  | some w =>
    cases htj : lookupTrainJob s w.train_job_id with
    | none =>
      simp only [Worker.iteration_body, mBind, get_train_job_worker, hw,
        if_budget_reached_none _ _ htj]
      exact ⟨hwf, [], by simp, goodDelta_nil⟩
    | some tj =>
      cases hbr : if_train_job_budget_reached tj.budget_type tj.budget_amount
          (completedOf s w.train_job_id) with
      | error e =>
        simp only [Worker.iteration_body, mBind, get_train_job_worker, hw,
          if_budget_reached_some _ _ _ htj, hbr]
        exact ⟨hwf, [], by simp, goodDelta_nil⟩
      | ok b =>
        cases b with
        | true =>
          simp only [Worker.iteration_body, mBind, get_train_job_worker, hw,
            if_budget_reached_some _ _ _ htj, hbr, if_pos, mOk]
          exact ⟨hwf, [], by simp, goodDelta_nil⟩
        | false =>
          simp only [Worker.iteration_body, mBind, get_train_job_worker, hw,
            if_budget_reached_some _ _ _ htj, hbr, Bool.false_eq_true,
            if_false, mOk]
          cases hmm : lookupModel s w.model_id with
          | none =>
            simp only [Worker.do_new_trial, mBind, connectDb, mOk,
              create_new_trial_no_model env w.train_job_id w.model_id s tj htj hmm]
            exact ⟨hwf, [], by simp, goodDelta_nil⟩
          | some model =>
            cases hu : env.unserialize_model model.model_serialized with
            | error e =>
              simp only [Worker.do_new_trial, mBind, connectDb, mOk,
                create_new_trial_unserialize_err env w.train_job_id w.model_id s
                  tj model e htj hmm hu]
              exact ⟨hwf, [], by simp, goodDelta_nil⟩
            | ok mi =>
              rw [do_new_trial_run env w.train_job_id w.model_id s tj model mi
                htj hmm hu]
              have hlook := lookupTrial_afterCreate s model.id tj.id
                (proposalFor env s tj model mi) hwf
              have hwfa := WF_afterCreate s model.id tj.id
                (proposalFor env s tj model mi) hwf
              cases hrm : Worker.runModel env model.model_serialized
                  (proposalFor env s tj model mi) tj.train_dataset_uri
                  tj.test_dataset_uri with
              | error e =>
                rw [trial_execution_model_err env model.model_serialized
                  (proposalFor env s tj model mi) tj.train_dataset_uri
                  tj.test_dataset_uri s.nextTrialId _ _ e hlook hrm]
                refine ⟨WF_setErrored _ _ hwfa, ?_⟩
                refine ⟨[.create s.nextTrialId (proposalFor env s tj model mi),
                  .execTrial (proposalFor env s tj model mi),
                  .errored s.nextTrialId], ?_, goodDelta_shape_err _ _ _ _⟩
                simp [setErrored, afterCreate]
              | ok pr =>
                obtain ⟨sc, ps⟩ := pr
                cases hcf : (afterCreate s model.id tj.id
                    (proposalFor env s tj model mi)).completeFaults.headD false with
                | false =>
                  rw [trial_execution_complete env model.model_serialized
                    (proposalFor env s tj model mi) tj.train_dataset_uri
                    tj.test_dataset_uri s.nextTrialId _ _ sc ps hlook hrm hcf]
                  refine ⟨WF_setComplete _ _ _ _ hwfa, ?_⟩
                  refine ⟨[.create s.nextTrialId (proposalFor env s tj model mi),
                    .execTrial (proposalFor env s tj model mi),
                    .complete s.nextTrialId true], ?_, goodDelta_shape_complete _ _ _ _⟩
                  simp [setComplete, afterCreate]
                | true =>
                  rw [trial_execution_complete_fault env model.model_serialized
                    (proposalFor env s tj model mi) tj.train_dataset_uri
                    tj.test_dataset_uri s.nextTrialId _ _ sc ps hlook hrm hcf]
                  refine ⟨WF_setFaultErrored _ _ hwfa, ?_⟩
                  refine ⟨[.create s.nextTrialId (proposalFor env s tj model mi),
                    .execTrial (proposalFor env s tj model mi),
                    .complete s.nextTrialId false,
                    .errored s.nextTrialId], ?_, goodDelta_shape_fault _ _ _ _ _⟩
                  simp [setFaultErrored, afterCreate]

/-- The whole loop preserves store well-formedness and appends a
well-behaved trace segment. -/
theorem worker_loop_good {σ : Type} (env : Env σ) (wid : Nat) :
    ∀ (n : Nat) (s : DbState), WF s →
      WF (Worker.worker_loop env wid n s).2 ∧
      ∃ Δ : List Op, (Worker.worker_loop env wid n s).2.trace = s.trace ++ Δ ∧
        goodDelta Δ := by
  intro n
  induction n with
  | zero =>
    intro s hwf
    exact ⟨hwf, [], by simp [Worker.worker_loop], goodDelta_nil⟩
  | succ n ih =>
    intro s hwf
    obtain ⟨hwf1, Δ1, htr1, hg1⟩ := iteration_good env wid s hwf
    rcases hit : Worker.iteration_body env wid s with ⟨r, s1⟩
    rw [hit] at hwf1 htr1
    simp only at hwf1 htr1
    cases r with
    | error e =>
      simp only [Worker.worker_loop, hit]
      exact ⟨hwf1, Δ1, htr1, hg1⟩
    | ok b =>
      cases b with
      | true =>
        simp only [Worker.worker_loop, hit]
        exact ⟨hwf1, Δ1, htr1, hg1⟩
      | false =>
        simp only [Worker.worker_loop, hit]
        obtain ⟨hwf2, Δ2, htr2, hg2⟩ := ih s1 hwf1
        refine ⟨hwf2, Δ1 ++ Δ2, ?_, goodDelta_append _ _ hg1 hg2⟩
        rw [htr2, htr1, List.append_assoc]

/-- C9: starting from a well-formed store with an empty trace, at every
prefix of the trace produced by a full run of `Worker.start` at most one
worker-created trial is in flight (created and not yet finalized): the
worker never opens a second trial before finalizing the current one. -/
theorem C9_at_most_one_trial_inflight {σ : Type} (env : Env σ) (wid fuel : Nat)
    (s : DbState) (hwf : WF s) (h0 : s.trace = []) :
    ∀ k : Nat, inflight (((Worker.start env wid fuel s).2).trace.take k) ≤ 1 := by
  intro k
  cases hw : lookupWorker s wid with
  | none =>
    simp only [Worker.start, mBind, get_train_job_worker, hw,
      mark_train_job_worker_as_running]
    rw [h0]
    simp [inflight]
  | some w =>
    have hwf1 : WF { s with workers := s.workers.map (fun x =>
        if x.id == w.id then { x with status := WorkerStatus.running } else x) } := hwf
    obtain ⟨hwf2, Δ, htr2, hg⟩ := worker_loop_good env wid fuel
      { s with workers := s.workers.map (fun x =>
          if x.id == w.id then { x with status := WorkerStatus.running } else x) } hwf1
    rcases hlp : Worker.worker_loop env wid fuel
      { s with workers := s.workers.map (fun x =>
          if x.id == w.id then { x with status := WorkerStatus.running } else x) }
      with ⟨c, s2⟩
    rw [hlp] at hwf2 htr2
    simp only at hwf2 htr2
    rw [h0] at htr2
    simp only [List.nil_append] at htr2
    cases hw2 : lookupWorker s2 wid with
    | none =>
      simp only [Worker.start, mBind, get_train_job_worker, hw,
        mark_train_job_worker_as_running, Worker.run_worker_loop, hlp, hw2,
        mark_train_job_worker_as_stopped]
      rw [htr2]
      exact (hg.1 k).2
    | some w2 =>
      simp only [Worker.start, mBind, get_train_job_worker, hw,
        mark_train_job_worker_as_running, Worker.run_worker_loop, hlp, hw2,
        mark_train_job_worker_as_stopped, mOk]
      rw [htr2]
      exact bounded_take_append_stopped Δ hg k

/-- C1: whenever `Worker.start` runs to an exit (budget-exhausted success
or abort on error, i.e. it returns an exit code), the worker assignment
is marked stopped: the final store shows the assignment with status
stopped, the trace contains exactly one more mark-stopped write than
before, and that write is the last store operation before the process
exits. -/
theorem C1_marked_stopped_exactly_once {σ : Type} (env : Env σ) (wid fuel : Nat)
    (s : DbState) (code : Nat) (hwf : WF s)
    (hres : (Worker.start env wid fuel s).1 = .ok (some code)) :
    (∃ w2 : WorkerRecord, lookupWorker (Worker.start env wid fuel s).2 wid = some w2 ∧
      w2.status = .stopped) ∧
    countStopped (Worker.start env wid fuel s).2.trace = countStopped s.trace + 1 ∧
    (Worker.start env wid fuel s).2.trace.getLast? = some Op.stopped := by
  cases hw : lookupWorker s wid with
  | none =>
    rw [show (Worker.start env wid fuel s).1 = .error .attributeError by
      simp [Worker.start, mBind, get_train_job_worker, hw,
        mark_train_job_worker_as_running]] at hres
    cases hres
  | some w =>
    have hwf1 : WF { s with workers := s.workers.map (fun x =>
        if x.id == w.id then { x with status := WorkerStatus.running } else x) } := hwf
    obtain ⟨hwf2, Δ, htr2, hg⟩ := worker_loop_good env wid fuel
      { s with workers := s.workers.map (fun x =>
          if x.id == w.id then { x with status := WorkerStatus.running } else x) } hwf1
    rcases hlp : Worker.worker_loop env wid fuel
      { s with workers := s.workers.map (fun x =>
          if x.id == w.id then { x with status := WorkerStatus.running } else x) }
      with ⟨c, s2⟩
    rw [hlp] at hwf2 htr2
    simp only at hwf2 htr2
    cases hw2 : lookupWorker s2 wid with
    | none =>
      rw [show (Worker.start env wid fuel s).1 = .error .attributeError by
        simp only [Worker.start, mBind, get_train_job_worker, hw,
          mark_train_job_worker_as_running, Worker.run_worker_loop, hlp, hw2,
          mark_train_job_worker_as_stopped]] at hres
      cases hres
    | some w2 =>
      have hid2 : w2.id = wid := lookupWorker_found_id s2 wid w2 hw2
      have hstate : (Worker.start env wid fuel s).2 =
          { s2 with
            workers := s2.workers.map (fun x =>
              if x.id == w2.id then { x with status := WorkerStatus.stopped } else x),
            trace := s2.trace ++ [Op.stopped] } := by
        simp only [Worker.start, mBind, get_train_job_worker, hw,
          mark_train_job_worker_as_running, Worker.run_worker_loop, hlp, hw2,
          mark_train_job_worker_as_stopped, mOk]
      rw [hstate]
      refine ⟨⟨{ w2 with status := WorkerStatus.stopped }, ?_, rfl⟩, ?_, ?_⟩
      · simp only [lookupWorker]
        rw [hid2]
        have hw2f : List.find? (fun x => x.id == wid) s2.workers = some w2 := hw2
        have hfind := find?_map_ite_worker
          (fun x => { x with status := WorkerStatus.stopped })
          (fun x => rfl) s2.workers wid w2 hw2f
        simpa [hid2] using hfind
      · have hcount : countStopped s2.trace = countStopped s.trace := by
          rw [htr2, countStopped_append, hg.2.2]
          rfl
        simp only [countStopped_append, hcount]
        rfl
      · simp

/-! ## Concrete scenario used by the spec's trial-count test and as
witness input -/

/-- The rational one half, given in normal form so the kernel can
evaluate with it. -/
def half : Rat := ⟨1, 2, by decide, by decide⟩

theorem half_eq_one_div_two : half = 1 / 2 := by
  show Rat.mk' 1 2 = 1 / 2
  rw [Rat.mk'_eq_divInt, Rat.divInt_eq_div]
  norm_num

/-- A model capability that always trains and evaluates to score 1/2. -/
def cInst : ModelInst Unit :=
  { hpConfig := [("lr", Knob.fixedVal 1)],
    init := fun _ => .ok (),
    train := fun _ _ => .ok (),
    evaluate := fun _ _ => .ok half,
    dump_parameters := fun _ => .ok [7],
    destroy := fun _ => .ok () }

/-- A model capability whose `train` always raises. -/
def fInst : ModelInst Unit :=
  { cInst with train := fun _ _ => .error (.modelError "boom") }

/-- External collaborators: deserialization always yields `cInst`; the
strategy proposes a configuration derived from the history length. -/
def cEnv : Env Unit :=
  { unserialize_model := fun _ => .ok cInst,
    propose := fun t => [("lr", (t.history_hps.length : Int))] }

/-- Collaborators whose model capability fails during training. -/
def fEnv : Env Unit :=
  { cEnv with unserialize_model := fun _ => .ok fInst }

def cWorkerRec : WorkerRecord :=
  { id := 0, train_job_id := 0, model_id := 0, status := .idle }

def cTrainJob : TrainJob :=
  { id := 0, train_dataset_uri := "tr", test_dataset_uri := "te",
    budget_type := .trialCount, budget_amount := 3 }

def cModel : DbModel := { id := 0, model_serialized := 5 }

/-- The spec scenario store: one worker, one trial-count-3 train job, one
model, zero prior trials, no store faults. -/
def cState : DbState :=
  { workers := [cWorkerRec], trainJobs := [cTrainJob], models := [cModel],
    trials := [], nextTrialId := 0, completeFaults := [], trace := [] }

/-- The same store with the first finalize-complete write scheduled to
fail. -/
def cState7 : DbState := { cState with completeFaults := [true] }

/-- The same store with a zero trial-count budget (already exhausted). -/
def cStateB0 : DbState :=
  { cState with trainJobs := [{ cTrainJob with budget_amount := 0 }] }

/-- The same store with the model record missing. -/
def cStateNM : DbState := { cState with models := [] }

set_option maxRecDepth 8000

/-- C8: with a trial-count budget of 3, zero prior trials and a model
capability that always scores 1/2, `Worker.start` creates exactly 3
trials, all finalized complete with score 1/2 (= 0.5), and exits with
code 0 on the budget check following the third completion (three loop
iterations do not exit yet; the fourth does). -/
theorem C8_trial_count_scenario :
    (Worker.start cEnv 0 4 cState).1 = .ok (some 0) ∧
    (Worker.start cEnv 0 4 cState).2.nextTrialId = 3 ∧
    (Worker.start cEnv 0 4 cState).2.trials.map (fun t => (t.status, t.score)) =
      [(.complete, some half), (.complete, some half), (.complete, some half)] ∧
    half = 1 / 2 ∧
    (completedOf (Worker.start cEnv 0 4 cState).2 0).length = 3 ∧
    (Worker.start cEnv 0 3 cState).1 = .ok none := by
  refine ⟨by decide, by decide, by decide, half_eq_one_div_two, by decide, by decide⟩

/-- C7 (counterexample): with the finalize-complete write scheduled to
fail, the worker records exactly one finalize-complete attempt (flagged
failed) for the trial — the same finalize call is not re-attempted —
and the trial is finalized errored instead. -/
theorem C7_counterexample_no_retry :
    cState7.completeFaults.headD false = true ∧
    (Worker.do_new_trial cEnv 0 0 cState7).1 = .ok () ∧
    (Worker.do_new_trial cEnv 0 0 cState7).2.trace =
      [.create 0 [("lr", 0)], .execTrial [("lr", 0)],
       .complete 0 false, .errored 0] ∧
    countCompleteAttempts (Worker.do_new_trial cEnv 0 0 cState7).2.trace 0 = 1 ∧
    ¬ 2 ≤ countCompleteAttempts (Worker.do_new_trial cEnv 0 0 cState7).2.trace 0 ∧
    lookupTrial (Worker.do_new_trial cEnv 0 0 cState7).2 0 =
      some { id := 0, model_id := 0, train_job_id := 0,
             hyperparameters := [("lr", 0)], status := .errored,
             score := none, parameters := none } := by
  refine ⟨by decide, by decide, by decide, by decide, by decide, by decide⟩

/-! ## Witnesses -/

theorem C1_witness :
    WF cState ∧ (Worker.start cEnv 0 4 cState).1 = .ok (some 0) ∧
    ((∃ w2 : WorkerRecord, lookupWorker (Worker.start cEnv 0 4 cState).2 0 = some w2 ∧
        w2.status = .stopped) ∧
      countStopped (Worker.start cEnv 0 4 cState).2.trace =
        countStopped cState.trace + 1 ∧
      (Worker.start cEnv 0 4 cState).2.trace.getLast? = some Op.stopped) :=
  ⟨by intro t ht; simp [cState] at ht, by decide,
    C1_marked_stopped_exactly_once cEnv 0 4 cState 0
      (by intro t ht; simp [cState] at ht) (by decide)⟩

theorem C2_witness :
    WF cState ∧
    lookupTrainJob cState 0 = some cTrainJob ∧
    lookupModel cState 0 = some cModel ∧
    fEnv.unserialize_model cModel.model_serialized = .ok fInst ∧
    Worker.runModel fEnv cModel.model_serialized
      (proposalFor fEnv cState cTrainJob cModel fInst)
      cTrainJob.train_dataset_uri cTrainJob.test_dataset_uri =
        .error (.modelError "boom") ∧
    (∃ s2 : DbState,
      Worker.do_new_trial fEnv 0 0 cState = (.ok (), s2) ∧
      lookupTrial s2 cState.nextTrialId =
        some { id := cState.nextTrialId, model_id := cModel.id,
               train_job_id := cTrainJob.id,
               hyperparameters := proposalFor fEnv cState cTrainJob cModel fInst,
               status := .errored, score := none, parameters := none } ∧
      (∀ (wid : Nat) (w : WorkerRecord), lookupWorker cState wid = some w →
        w.train_job_id = 0 → w.model_id = 0 →
        if_train_job_budget_reached cTrainJob.budget_type cTrainJob.budget_amount
          (completedOf cState 0) = .ok false →
        Worker.iteration_body fEnv wid cState = (.ok false, s2) ∧
        ∀ n : Nat, Worker.worker_loop fEnv wid (n + 1) cState =
          Worker.worker_loop fEnv wid n s2)) :=
  ⟨by intro t ht; simp [cState] at ht, by decide, by decide, rfl, rfl,
    C2_model_exception_marks_errored fEnv 0 0 cState cTrainJob cModel fInst
      (.modelError "boom") (by intro t ht; simp [cState] at ht)
      (by decide) (by decide) rfl rfl⟩

theorem C3_witness :
    lookupWorker cStateB0 0 = some cWorkerRec ∧
    lookupTrainJob cStateB0 cWorkerRec.train_job_id =
      some { cTrainJob with budget_amount := 0 } ∧
    if_train_job_budget_reached BudgetType.trialCount 0
      (completedOf cStateB0 cWorkerRec.train_job_id) = .ok true ∧
    (Worker.iteration_body cEnv 0 cStateB0 = (.ok true, cStateB0) ∧
      Worker.worker_loop cEnv 0 (2 + 1) cStateB0 = (some 0, cStateB0)) :=
  ⟨by decide, by decide, by decide,
    C3_budget_exhausted_exits_zero cEnv 0 2 cStateB0 cWorkerRec
      { cTrainJob with budget_amount := 0 } (by decide) (by decide) (by decide)⟩

theorem C4_witness :
    lookupWorker cStateNM 0 = some cWorkerRec ∧
    lookupTrainJob cStateNM cWorkerRec.train_job_id = some cTrainJob ∧
    if_train_job_budget_reached cTrainJob.budget_type cTrainJob.budget_amount
      (completedOf cStateNM cWorkerRec.train_job_id) = .ok false ∧
    lookupModel cStateNM cWorkerRec.model_id = none ∧
    ((∀ (tjid mid : Nat) (sx : DbState), lookupTrainJob sx tjid = none →
        Worker.create_new_trial cEnv tjid mid sx = (.error .noSuchTrainJob, sx)) ∧
      (∀ (tjid mid : Nat) (sx : DbState) (tjx : TrainJob),
        lookupTrainJob sx tjid = some tjx → lookupModel sx mid = none →
        Worker.create_new_trial cEnv tjid mid sx = (.error .noSuchModel, sx)) ∧
      Worker.iteration_body cEnv 0 cStateNM = (.error .noSuchModel, cStateNM) ∧
      Worker.worker_loop cEnv 0 (2 + 1) cStateNM = (some 1, cStateNM)) :=
  ⟨by decide, by decide, by decide, by decide,
    C4_not_found_aborts cEnv 0 2 cStateNM cWorkerRec cTrainJob
      (by decide) (by decide) (by decide) (by decide)⟩

theorem C5_witness :
    cEnv.unserialize_model cModel.model_serialized = .ok cInst ∧
    (Worker.get_tuner_for_model cEnv cTrainJob cModel cState =
      (.ok (train_tuner (create_tuner cInst.hpConfig)
          ((modelHistory cState cTrainJob.id cModel.id).map Prod.fst)
          ((modelHistory cState cTrainJob.id cModel.id).map Prod.snd)), cState) ∧
      (∀ s2 : DbState,
        modelHistory s2 cTrainJob.id cModel.id =
          modelHistory cState cTrainJob.id cModel.id →
        (Worker.get_tuner_for_model cEnv cTrainJob cModel s2).1 =
          (Worker.get_tuner_for_model cEnv cTrainJob cModel cState).1)) :=
  ⟨rfl, C5_fresh_tuner_each_cycle cEnv cTrainJob cModel cState cInst rfl⟩

theorem C6_witness :
    lookupTrainJob cState 0 = some cTrainJob ∧
    ((∀ t ∈ completedOf cState 0, t.status = .complete ∧ t.train_job_id = 0) ∧
      Worker.if_budget_reached 0 cState =
        (if_train_job_budget_reached cTrainJob.budget_type cTrainJob.budget_amount
          (completedOf cState 0), cState) ∧
      (∀ (s2 : DbState) (tj2 : TrainJob), lookupTrainJob s2 0 = some tj2 →
        tj2.budget_type = cTrainJob.budget_type →
        tj2.budget_amount = cTrainJob.budget_amount →
        completedOf s2 0 = completedOf cState 0 →
        (Worker.if_budget_reached 0 s2).1 = (Worker.if_budget_reached 0 cState).1)) :=
  ⟨by decide, C6_budget_inputs cState 0 cTrainJob (by decide)⟩

theorem C7_witness :
    WF cState7 ∧
    lookupTrainJob cState7 0 = some cTrainJob ∧
    lookupModel cState7 0 = some cModel ∧
    cEnv.unserialize_model cModel.model_serialized = .ok cInst ∧
    Worker.runModel cEnv cModel.model_serialized
      (proposalFor cEnv cState7 cTrainJob cModel cInst)
      cTrainJob.train_dataset_uri cTrainJob.test_dataset_uri = .ok (half, [7]) ∧
    cState7.completeFaults.headD false = true ∧
    (∃ s2 : DbState,
      Worker.do_new_trial cEnv 0 0 cState7 = (.ok (), s2) ∧
      s2.trace = cState7.trace ++
        [.create cState7.nextTrialId (proposalFor cEnv cState7 cTrainJob cModel cInst),
         .execTrial (proposalFor cEnv cState7 cTrainJob cModel cInst),
         .complete cState7.nextTrialId false, .errored cState7.nextTrialId] ∧
      countCompleteAttempts (s2.trace.drop cState7.trace.length)
        cState7.nextTrialId = 1 ∧
      lookupTrial s2 cState7.nextTrialId =
        some { id := cState7.nextTrialId, model_id := cModel.id,
               train_job_id := cTrainJob.id,
               hyperparameters := proposalFor cEnv cState7 cTrainJob cModel cInst,
               status := .errored, score := none, parameters := none }) :=
  ⟨by intro t ht; simp [cState7, cState] at ht, by decide, by decide, rfl, rfl,
    by decide,
    C7_failed_finalize_marks_errored cEnv 0 0 cState7 cTrainJob cModel cInst
      half [7] (by intro t ht; simp [cState7, cState] at ht)
      (by decide) (by decide) rfl rfl (by decide)⟩

theorem C9_witness :
    WF cState ∧ cState.trace = [] ∧
    ∀ k : Nat, inflight (((Worker.start cEnv 0 4 cState).2).trace.take k) ≤ 1 :=
  ⟨by intro t ht; simp [cState] at ht, rfl,
    C9_at_most_one_trial_inflight cEnv 0 4 cState
      (by intro t ht; simp [cState] at ht) rfl⟩

theorem C10_witness :
    WF cState ∧
    lookupTrainJob cState 0 = some cTrainJob ∧
    lookupModel cState 0 = some cModel ∧
    cEnv.unserialize_model cModel.model_serialized = .ok cInst ∧
    (Worker.create_new_trial cEnv 0 0 cState =
      (.ok (cTrainJob.train_dataset_uri, cTrainJob.test_dataset_uri,
            cModel.model_serialized, proposalFor cEnv cState cTrainJob cModel cInst,
            cState.nextTrialId),
       afterCreate cState cModel.id cTrainJob.id
         (proposalFor cEnv cState cTrainJob cModel cInst)) ∧
    lookupTrial (afterCreate cState cModel.id cTrainJob.id
        (proposalFor cEnv cState cTrainJob cModel cInst)) cState.nextTrialId =
      some { id := cState.nextTrialId, model_id := cModel.id,
             train_job_id := cTrainJob.id,
             hyperparameters := proposalFor cEnv cState cTrainJob cModel cInst,
             status := .running, score := none, parameters := none } ∧
    ∃ rest : List Op,
      (Worker.do_new_trial cEnv 0 0 cState).2.trace = cState.trace ++
        Op.create cState.nextTrialId (proposalFor cEnv cState cTrainJob cModel cInst) ::
        Op.execTrial (proposalFor cEnv cState cTrainJob cModel cInst) :: rest) :=
  ⟨by intro t ht; simp [cState] at ht, by decide, by decide, rfl,
    C10_stored_equals_proposed_equals_executed cEnv 0 0 cState cTrainJob cModel cInst
      (by intro t ht; simp [cState] at ht) (by decide) (by decide) rfl⟩

end Rafiki
